import Mathlib

/-!
Shallow embedding of the semantic-analysis core of the LFortran front-end
(src/lfortran/semantics/ast_to_asr.cpp), restricted to the parts needed to
settle the claims about the implicit-conversion engine, constant folding,
assignment and associate lowering, generic dispatch, use-import of external
symbols, symbol insertion, and module dependency lists.

Conventions of the embedding:
- Identifier names (std::string in the source) are modelled as opaque Nat
  atoms; their only role in the embedded fragments is equality.
- Machine integers (int64_t) are modelled as Int with explicit wrap-around
  where the source performs 64-bit arithmetic.
- Fallible visitors (which throw SemanticError) return Except SemErr.
- ASR node variants are modelled by inductive types mirroring the variant
  sets the embedded code inspects.
-/

/-- Decidable equality for Except values, so that closed statements about
the fallible visitors can be settled by decide. -/
instance {ε α : Type} [DecidableEq ε] [DecidableEq α] :
    DecidableEq (Except ε α) := fun a b =>
  match a, b with
  | Except.ok x, Except.ok y =>
      if h : x = y then Decidable.isTrue (by rw [h])
      else Decidable.isFalse (by intro hh; cases hh; exact h rfl)
  | Except.error x, Except.error y =>
      if h : x = y then Decidable.isTrue (by rw [h])
      else Decidable.isFalse (by intro hh; cases hh; exact h rfl)
  | Except.ok _, Except.error _ => Decidable.isFalse (by intro hh; cases hh)
  | Except.error _, Except.ok _ => Decidable.isFalse (by intro hh; cases hh)

namespace AstToAsr

/-- Identifier atoms; the source uses case-folded std::string names, whose
only role in the embedded fragments is equality. -/
abbrev Name := Nat

/-- The twelve ASR type variants, in the order used by the rule table of
ImplicitCastRules (see the type_names table in the source: Integer, Real,
Complex, Character, Logical, Derived, then the pointer counterpart of each
in the same order). -/
inductive TtypeTag where
  | Integer
  | Real
  | Complex
  | Character
  | Logical
  | Derived
  | IntegerPointer
  | RealPointer
  | ComplexPointer
  | CharacterPointer
  | LogicalPointer
  | DerivedPointer
  deriving DecidableEq, Fintype

/-- Numeric index of a type variant, matching the ASR::ttypeType enumerator
order that the source uses to index rule_map and type_priority. -/
def tagIndex : TtypeTag → Nat
  | TtypeTag.Integer => 0
  | TtypeTag.Real => 1
  | TtypeTag.Complex => 2
  | TtypeTag.Character => 3
  | TtypeTag.Logical => 4
  | TtypeTag.Derived => 5
  | TtypeTag.IntegerPointer => 6
  | TtypeTag.RealPointer => 7
  | TtypeTag.ComplexPointer => 8
  | TtypeTag.CharacterPointer => 9
  | TtypeTag.LogicalPointer => 10
  | TtypeTag.DerivedPointer => 11

/-- Type family index: the source reduces a variant index modulo
num_types/2 = 6, so each pointer variant shares its plain counterpart's
family (Integer=0, Real=1, Complex=2, Character=3, Logical=4, Derived=5). -/
def famIdx (t : TtypeTag) : Nat := tagIndex t % 6

/-- Modelled from the spec: ASRUtils::is_pointer (declared in asr_utils.h,
not under src/) distinguishes the pointer variants from the plain ones. -/
def is_pointer (t : TtypeTag) : Bool := decide (6 ≤ tagIndex t)

/-- An ASR type: variant tag, kind (byte width), and the number of declared
dimensions (the embedded code only ever asks whether it is zero). -/
structure Ttype where
  tag : TtypeTag
  kind : Nat
  ndims : Nat
  deriving DecidableEq

/-- Modelled from the spec: ASRUtils::extract_kind_from_ttype_t reads the
kind field of a type. -/
def extract_kind_from_ttype_t (t : Ttype) : Nat := t.kind

/-- Modelled from the spec: ASRUtils::is_array holds when the type carries
declared dimensions. -/
def is_array (t : Ttype) : Bool := decide (0 < t.ndims)

/-- The ASR::cast_kindType values stored in the rule table. -/
inductive CastKind where
  | IntegerToReal
  | IntegerToInteger
  | RealToInteger
  | RealToComplex
  | IntegerToComplex
  | IntegerToLogical
  | ComplexToComplex
  | RealToReal
  deriving DecidableEq, Fintype

/-- One entry of the rule table: the default case (no conversion needed),
the error case (illegal coercion) or a specific cast kind. -/
inductive CastAction where
  | defaultCase
  | errorCase
  | castCase (k : CastKind)
  deriving DecidableEq, Fintype

/-- ImplicitCastRules::rule_map: row index is the source family (variant
index modulo 6), column index is the destination variant index (0..11).
Transcribed row by row from the source. -/
def rule_map : List (List CastAction) :=
  [ [CastAction.castCase CastKind.IntegerToInteger, CastAction.castCase CastKind.IntegerToReal,
     CastAction.castCase CastKind.IntegerToComplex, CastAction.errorCase,
     CastAction.castCase CastKind.IntegerToLogical, CastAction.errorCase,
     CastAction.castCase CastKind.IntegerToInteger, CastAction.castCase CastKind.IntegerToReal,
     CastAction.castCase CastKind.IntegerToComplex, CastAction.errorCase,
     CastAction.castCase CastKind.IntegerToLogical, CastAction.errorCase],
    [CastAction.castCase CastKind.RealToInteger, CastAction.castCase CastKind.RealToReal,
     CastAction.castCase CastKind.RealToComplex, CastAction.defaultCase,
     CastAction.defaultCase, CastAction.defaultCase,
     CastAction.castCase CastKind.RealToInteger, CastAction.castCase CastKind.RealToReal,
     CastAction.castCase CastKind.RealToComplex, CastAction.defaultCase,
     CastAction.defaultCase, CastAction.defaultCase],
    [CastAction.defaultCase, CastAction.defaultCase,
     CastAction.castCase CastKind.ComplexToComplex, CastAction.defaultCase,
     CastAction.defaultCase, CastAction.defaultCase,
     CastAction.defaultCase, CastAction.defaultCase,
     CastAction.castCase CastKind.ComplexToComplex, CastAction.defaultCase,
     CastAction.defaultCase, CastAction.defaultCase],
    [CastAction.defaultCase, CastAction.defaultCase, CastAction.defaultCase,
     CastAction.defaultCase, CastAction.defaultCase, CastAction.defaultCase,
     CastAction.defaultCase, CastAction.defaultCase, CastAction.defaultCase,
     CastAction.defaultCase, CastAction.defaultCase, CastAction.defaultCase],
    [CastAction.defaultCase, CastAction.defaultCase, CastAction.defaultCase,
     CastAction.defaultCase, CastAction.defaultCase, CastAction.defaultCase,
     CastAction.defaultCase, CastAction.defaultCase, CastAction.defaultCase,
     CastAction.defaultCase, CastAction.defaultCase, CastAction.defaultCase],
    [CastAction.defaultCase, CastAction.defaultCase, CastAction.defaultCase,
     CastAction.defaultCase, CastAction.defaultCase, CastAction.defaultCase,
     CastAction.defaultCase, CastAction.defaultCase, CastAction.defaultCase,
     CastAction.defaultCase, CastAction.defaultCase, CastAction.defaultCase] ]

/-- Lookup rule_map[row][col]; both indices are in range in every use. -/
def ruleLookup (row col : Nat) : CastAction :=
  (rule_map.getD row []).getD col CastAction.defaultCase

/-- ImplicitCastRules::type_priority, indexed by family (variant index
modulo 6): Integer=4, Real=5, Complex=6, Character/Logical/Derived=-1. -/
def type_priority : List Int := [4, 5, 6, -1, -1, -1]

/-- Priority of a type variant, as read by find_conversion_candidate:
type_priority[tag % 6]. -/
def prioTag (t : TtypeTag) : Int := type_priority.getD (famIdx t) (-1)

/-- Priority of a type. -/
def prioOf (t : Ttype) : Int := prioTag t.tag

/-- Modelled from the spec: ASRUtils::is_same_type_pointer (asr_utils, not
under src/) recognises a plain/pointer pair of the same type family. -/
def same_type_pointer_tags (a b : TtypeTag) : Bool :=
  (famIdx a == famIdx b) && (is_pointer a != is_pointer b)

/-- The guard of set_converted_value: identical variant, or a plain/pointer
pair of the same family. -/
def same_or_ptr (a b : Ttype) : Bool :=
  (a.tag == b.tag) || same_type_pointer_tags a.tag b.tag

/-- Outcome of ImplicitCastRules::set_converted_value on the type level:
leave the expression alone, wrap it in an ImplicitCast with the given cast
kind and destination type, or raise the IllegalCoercion error. -/
inductive CVOut where
  | noCast
  | casted (k : CastKind) (d : Ttype)
  | illegal
  deriving DecidableEq

/-- Rule-table consultation step of set_converted_value:
rule_map[source % 6][dest], mapped to the outcome (the cast node carries the
destination type). -/
def consult_rule (src dst : Ttype) : CVOut :=
  match ruleLookup (tagIndex src.tag % 6) (tagIndex dst.tag) with
  | CastAction.errorCase => CVOut.illegal
  | CastAction.defaultCase => CVOut.noCast
  | CastAction.castCase k => CVOut.casted k dst

/-- ImplicitCastRules::set_converted_value, on the type level. Mirrors the
source: if source and destination are the same variant or a plain/pointer
pair of the same family, swap so the pointer side is the source, and return
without a cast when the kinds agree; otherwise (including when the kinds
disagree) consult the rule table with the possibly swapped pair. -/
def set_converted_value (source_type dest_type : Ttype) : CVOut :=
  if same_or_ptr source_type dest_type then
    if is_pointer source_type.tag && !(is_pointer dest_type.tag) then
      if extract_kind_from_ttype_t dest_type = extract_kind_from_ttype_t source_type then
        CVOut.noCast
      else consult_rule dest_type source_type
    else
      if extract_kind_from_ttype_t source_type = extract_kind_from_ttype_t dest_type then
        CVOut.noCast
      else consult_rule source_type dest_type
  else consult_rule source_type dest_type

/-- Which operand of a binary operation is the conversion candidate. -/
inductive Side where
  | left
  | right
  deriving DecidableEq, Fintype

/-- ImplicitCastRules::find_conversion_candidate: if the left priority is
greater than or equal to the right priority, the right operand is the
candidate (source = right type, destination = left type); otherwise the
left operand is the candidate. Returns (candidate side, source type,
destination type). -/
def find_conversion_candidate (left_type right_type : Ttype) :
    Side × Ttype × Ttype :=
  if prioOf right_type ≤ prioOf left_type then
    (Side.right, right_type, left_type)
  else
    (Side.left, left_type, right_type)

/-- ASR::binopType; the AST-to-ASR operator switch at the top of
CommonVisitorMethods::visit_BinOp is the identity on these five values. -/
inductive Binop where
  | Add
  | Sub
  | Mul
  | Div
  | Pow
  deriving DecidableEq, Fintype

/-- ASR::cmpopType; the AST-to-ASR operator switch in visit_Compare is the
identity on these six values. -/
inductive Cmpop where
  | CEq
  | Gt
  | GtE
  | Lt
  | LtE
  | NotEq
  deriving DecidableEq, Fintype

/-- Structured semantic errors; each constructor stands for one of the
SemanticError messages thrown by the embedded code (the spec names the
corresponding diagnostic kinds). -/
inductive SemErr where
  | IllegalCoercion
  | InvalidAssignmentTarget
  | ConstantArrayTarget
  | CompareTypeMismatch
  | AlreadyDefined
  | NoGenericMatch
  | GenericNotSubroutine
  | PointerAssociation
  | UnsupportedUseSymbol
  | IntegerLiteralTooLarge
  deriving DecidableEq

/-- Folded constant value attached to an expression node. The source stores
an ASR expression; binary-operator folding only ever inspects and produces
ConstantInteger values, so other constants are collapsed into otherVal. -/
inductive FoldVal where
  | intVal (n : Int) (ty : Ttype)
  | otherVal
  deriving DecidableEq

/-- ASR expression nodes, restricted to the variants the embedded visitors
create or inspect. ConstantReal carries no payload: its double value plays
no role in the embedded fragments (integer-only folding). -/
inductive Expr where
  | ConstantInteger (n : Int) (ty : Ttype)
  | ConstantReal (ty : Ttype)
  | ConstantLogical (b : Bool) (ty : Ttype)
  | ConstantArray (ty : Ttype)
  | Var (name : Name) (ty : Ttype)
  | ArrayRef (name : Name) (ty : Ttype)
  | DerivedRef (name : Name) (member : Name) (ty : Ttype)
  | ImplicitCast (arg : Expr) (kind : CastKind) (ty : Ttype)
  | BinOp (left : Expr) (op : Binop) (right : Expr) (ty : Ttype)
      (value : Option FoldVal)
  | Compare (left : Expr) (op : Cmpop) (right : Expr) (ty : Ttype)
      (value : Option FoldVal)
  deriving DecidableEq

/-- ASRUtils::expr_type: every embedded expression node carries its type. -/
def expr_type : Expr → Ttype
  | Expr.ConstantInteger _ ty => ty
  | Expr.ConstantReal ty => ty
  | Expr.ConstantLogical _ ty => ty
  | Expr.ConstantArray ty => ty
  | Expr.Var _ ty => ty
  | Expr.ArrayRef _ ty => ty
  | Expr.DerivedRef _ _ ty => ty
  | Expr.ImplicitCast _ _ ty => ty
  | Expr.BinOp _ _ _ ty _ => ty
  | Expr.Compare _ _ _ ty _ => ty

/-- ASRUtils::expr_value: constants evaluate to themselves, operator nodes
carry their folded value, and every ImplicitCast built by the embedded code
carries a null value (the source passes nullptr when it creates the node),
as do variable and reference nodes. -/
def expr_value : Expr → Option FoldVal
  | Expr.ConstantInteger n ty => some (FoldVal.intVal n ty)
  | Expr.ConstantReal _ => some FoldVal.otherVal
  | Expr.ConstantLogical _ _ => some FoldVal.otherVal
  | Expr.ConstantArray _ => some FoldVal.otherVal
  | Expr.Var _ _ => none
  | Expr.ArrayRef _ _ => none
  | Expr.DerivedRef _ _ _ => none
  | Expr.ImplicitCast _ _ _ => none
  | Expr.BinOp _ _ _ _ v => v
  | Expr.Compare _ _ _ _ v => v

/-- Apply the outcome of set_converted_value to the conversion candidate:
the error case raises IllegalCoercion, a specific cast kind wraps the
expression in an ImplicitCast carrying that kind and the destination type,
and the default case leaves the expression unchanged. -/
def applyConversion (e : Expr) (source_type dest_type : Ttype) :
    Except SemErr Expr :=
  match set_converted_value source_type dest_type with
  | CVOut.illegal => Except.error SemErr.IllegalCoercion
  | CVOut.noCast => Except.ok e
  | CVOut.casted k d => Except.ok (Expr.ImplicitCast e k d)

/-- Wrap an integer into the signed 64-bit range, modelling the int64_t
arithmetic of the folding code in visit_BinOp (two's-complement
wrap-around). -/
def wrap64 (n : Int) : Int := (n + 2 ^ 63) % 2 ^ 64 - 2 ^ 63

/-- The folded result for one binary operator, on int64_t operand values.
Division is C truncating division (the source divides int64_t values; a
zero divisor is undefined behaviour there and maps to tdiv's 0 here). The
Pow case goes through std::pow on doubles in the source; its int64_t result
is modelled by the explicit parameter powImpl, so no theorem below depends
on a particular choice of it. -/
def foldOp (powImpl : Int → Int → Int) : Binop → Int → Int → Int
  | Binop.Add, a, b => wrap64 (a + b)
  | Binop.Sub, a, b => wrap64 (a - b)
  | Binop.Mul, a, b => wrap64 (a * b)
  | Binop.Div, a, b => wrap64 (Int.tdiv a b)
  | Binop.Pow, a, b => powImpl a b

/-- A concrete representative for the std::pow-based Pow folding, used only
to instantiate powImpl in closed statements whose truth does not depend on
it. -/
def powModel (a b : Int) : Int := wrap64 (a ^ b.natAbs)

/-- CommonVisitorMethods::visit_BinOp, after both operands have been
lowered. The conversion candidate is chosen by priority and converted by
set_converted_value; then, when both (possibly converted) operands carry
constant values, the destination type is Integer and both values are
constant integers, the folded int64_t result is attached as the node's
value. -/
def visit_BinOp (powImpl : Int → Int → Int) (op : Binop)
    (left right : Expr) : Except SemErr Expr :=
  let left_type := expr_type left
  let right_type := expr_type right
  let fcc := find_conversion_candidate left_type right_type
  let cand := fcc.1
  let source_type := fcc.2.1
  let dest_type := fcc.2.2
  match applyConversion (if cand = Side.left then left else right)
      source_type dest_type with
  | Except.error e => Except.error e
  | Except.ok converted =>
    let left2 := if cand = Side.left then converted else left
    let right2 := if cand = Side.right then converted else right
    let value : Option FoldVal :=
      match expr_value left2, expr_value right2 with
      | some lv, some rv =>
        if dest_type.tag = TtypeTag.Integer then
          match lv, rv with
          | FoldVal.intVal ln _, FoldVal.intVal rn _ =>
              some (FoldVal.intVal (foldOp powImpl op ln rn) dest_type)
          | _, _ => none
        else none
      | _, _ => none
    Except.ok (Expr.BinOp left2 op right2 dest_type value)

/-- The rejection condition of CommonVisitorMethods::visit_Compare:
neither operand is Integer- or Real-tagged, and it is not the case that
both operands are Complex-tagged or the operator is Eq or NotEq. -/
def compare_reject (lt rt : Ttype) (op : Cmpop) : Bool :=
  (!(lt.tag == TtypeTag.Real) && !(lt.tag == TtypeTag.Integer)) &&
  ((!(rt.tag == TtypeTag.Real) && !(rt.tag == TtypeTag.Integer)) &&
   ((!(lt.tag == TtypeTag.Complex) || !(rt.tag == TtypeTag.Complex)) &&
    (!(op == Cmpop.CEq) && !(op == Cmpop.NotEq))))

/-- CommonVisitorMethods::visit_Compare, after both operands have been
lowered: reject unsupported operand-type combinations, otherwise convert
the lower-priority operand and build a Compare node of type Logical(4) with
no folded value. -/
def visit_Compare (op : Cmpop) (left right : Expr) : Except SemErr Expr :=
  let left_type := expr_type left
  let right_type := expr_type right
  if compare_reject left_type right_type op then
    Except.error SemErr.CompareTypeMismatch
  else
    let fcc := find_conversion_candidate left_type right_type
    match applyConversion (if fcc.1 = Side.left then left else right)
        fcc.2.1 fcc.2.2 with
    | Except.error e => Except.error e
    | Except.ok converted =>
      let left2 := if fcc.1 = Side.left then converted else left
      let right2 := if fcc.1 = Side.right then converted else right
      Except.ok (Expr.Compare left2 op right2
        (Ttype.mk TtypeTag.Logical 4 0) none)

/-- ASR statement nodes needed by the embedded statement visitors. -/
inductive Stmt where
  | Assignment (target : Expr) (value : Expr)
  | Associate (target : Expr) (value : Expr)
  deriving DecidableEq

/-- Whether an expression is a Var node. -/
def isVarE : Expr → Bool
  | Expr.Var _ _ => true
  | _ => false

/-- Whether an expression is an ArrayRef node. -/
def isArrayRefE : Expr → Bool
  | Expr.ArrayRef _ _ => true
  | _ => false

/-- Whether an expression is a DerivedRef node. -/
def isDerivedRefE : Expr → Bool
  | Expr.DerivedRef _ _ _ => true
  | _ => false

/-- Whether an expression is a ConstantArray node. -/
def isConstantArrayE : Expr → Bool
  | Expr.ConstantArray _ => true
  | _ => false

/-- Whether an expression is an ImplicitCast node. -/
def isImplicitCastE : Expr → Bool
  | Expr.ImplicitCast _ _ _ => true
  | _ => false

/-- BodyVisitor::visit_Assignment, after both sides have been lowered. The
target must be a Var, ArrayRef or DerivedRef; a ConstantArray value may not
be assigned to a non-array Var target; the value is passed through the
implicit-conversion engine only when the target is a Var or an ArrayRef. -/
def visit_Assignment (target value : Expr) : Except SemErr Stmt :=
  if !(isVarE target || isArrayRefE target || isDerivedRefE target) then
    Except.error SemErr.InvalidAssignmentTarget
  else if isVarE target && !(is_array (expr_type target)) && isConstantArrayE value then
    Except.error SemErr.ConstantArrayTarget
  else if isVarE target || isArrayRefE target then
    match applyConversion value (expr_type value) (expr_type target) with
    | Except.error e => Except.error e
    | Except.ok value2 => Except.ok (Stmt.Assignment target value2)
  else
    Except.ok (Stmt.Assignment target value)

/-- BodyVisitor::visit_Associate, after both sides have been lowered. The
target must be pointer-typed and the value non-pointer-typed, else a
SemanticError is thrown; when additionally the two types are a plain/
pointer pair of the same family an Associate node is produced, and
otherwise the source falls through without assigning tmp, modelled here as
ok none (no statement and no error). -/
def visit_Associate (target value : Expr) : Except SemErr (Option Stmt) :=
  let target_type := expr_type target
  let value_type := expr_type value
  let is_target_pointer := is_pointer target_type.tag
  let is_value_pointer := is_pointer value_type.tag
  if !(is_target_pointer && !is_value_pointer) then
    Except.error SemErr.PointerAssociation
  else if same_type_pointer_tags target_type.tag value_type.tag then
    Except.ok (some (Stmt.Associate target value))
  else
    Except.ok none

/-- BodyVisitor::visit_Num: integer literals become ConstantInteger of type
Integer(4); literals that do not fit BigInt's tagged representation
(strictly above 2^62 - 1) are rejected. -/
def visit_Num (n : Int) : Except SemErr Expr :=
  if 2 ^ 62 - 1 < n then Except.error SemErr.IntegerLiteralTooLarge
  else Except.ok (Expr.ConstantInteger n (Ttype.mk TtypeTag.Integer 4 0))

/-- ASR::abiType values the embedded code distinguishes. -/
inductive AbiType where
  | Source
  | Interactive
  | Intrinsic
  deriving DecidableEq, Fintype

/-- ASR::accessType. -/
inductive Access where
  | Public
  | Private
  deriving DecidableEq, Fintype

/-- A specific procedure of a GenericProcedure, as inspected by
select_generic_procedure: either a Subroutine, modelled by its name and the
types of its formal arguments (EXPR2VAR(sub.m_args[i])->m_type), or some
other symbol kind, which select_generic_procedure rejects. -/
inductive ProcSpec where
  | subroutine (name : Name) (argTypes : List Ttype)
  | nonSubroutine (name : Name)
  deriving DecidableEq

/-- ASR symbol variants inspected by the embedded fragments. The target of
an ExternalSymbol (its m_external field) is a nested Symbol, so a chain of
ExternalSymbols appears as nesting. -/
inductive Symbol where
  | Variable (name : Name) (ty : Ttype)
  | Subroutine (name : Name) (abi : AbiType)
  | Function (name : Name) (abi : AbiType)
  | GenericProcedure (name : Name) (procs : List ProcSpec)
  | DerivedType (name : Name)
  | Module (name : Name)
  | ExternalSymbol (name : Name) (target : Symbol)
      (module_name : Name) (original_name : Name) (access : Access)
  deriving DecidableEq

/-- ASRUtils::symbol_name. -/
def symbol_name : Symbol → Name
  | Symbol.Variable n _ => n
  | Symbol.Subroutine n _ => n
  | Symbol.Function n _ => n
  | Symbol.GenericProcedure n _ => n
  | Symbol.DerivedType n => n
  | Symbol.Module n => n
  | Symbol.ExternalSymbol n _ _ _ _ => n

/-- Whether a symbol is an ExternalSymbol. -/
def isExternalS : Symbol → Bool
  | Symbol.ExternalSymbol _ _ _ _ _ => true
  | _ => false

/-- The no-chaining invariant at one symbol: if it is an ExternalSymbol,
its target is not. -/
def chainFree : Symbol → Prop
  | Symbol.ExternalSymbol _ t _ _ _ => isExternalS t = false
  | _ => True

/-- The target of an ExternalSymbol, when the symbol is one. -/
def externalTarget : Symbol → Option Symbol
  | Symbol.ExternalSymbol _ t _ _ _ => some t
  | _ => none

/-- SymbolTableVisitor::visit_Use, only-list branch, for one imported
symbol: given the remote symbol resolved in the used module, the local name
(after any rename), and whether the local scope already binds that name,
produce the local ExternalSymbol record. New records point at the remote
symbol itself and use the default Public access; when the remote symbol is
itself an ExternalSymbol the record is re-packed: it reuses the remote
record's name, target, module name, original name and access, so it points
directly at the ultimate target. A remote Module is not supported in a use
list. -/
def importUseSymbol (module_name : Name) (remote : Symbol)
    (local_sym : Name) (existsLocal : Bool) : Except SemErr Symbol :=
  match remote with
  | Symbol.Subroutine _ _ =>
      if existsLocal then Except.error SemErr.AlreadyDefined
      else Except.ok (Symbol.ExternalSymbol local_sym remote module_name
        (symbol_name remote) Access.Public)
  | Symbol.GenericProcedure _ _ =>
      if existsLocal then Except.error SemErr.AlreadyDefined
      else Except.ok (Symbol.ExternalSymbol local_sym remote module_name
        (symbol_name remote) Access.Public)
  | Symbol.ExternalSymbol es_name es_target es_module es_orig es_access =>
      if existsLocal then Except.error SemErr.AlreadyDefined
      else Except.ok (Symbol.ExternalSymbol es_name es_target es_module
        es_orig es_access)
  | Symbol.Function _ _ =>
      if existsLocal then Except.error SemErr.AlreadyDefined
      else Except.ok (Symbol.ExternalSymbol local_sym remote module_name
        (symbol_name remote) Access.Public)
  | Symbol.Variable _ _ =>
      if existsLocal then Except.error SemErr.AlreadyDefined
      else Except.ok (Symbol.ExternalSymbol local_sym remote module_name
        (symbol_name remote) Access.Public)
  | Symbol.DerivedType _ =>
      if existsLocal then Except.error SemErr.AlreadyDefined
      else Except.ok (Symbol.ExternalSymbol local_sym remote module_name
        (symbol_name remote) Access.Public)
  | Symbol.Module _ => Except.error SemErr.UnsupportedUseSymbol

/-- SymbolTableVisitor::visit_Declaration, duplicate-name check for one
declared variable: a name already present in the current scope is an error
only when the scope has a parent (re-declaring a global-scope variable is
allowed and overwrites). -/
def declaration_insert_check (existsInScope hasParent : Bool) :
    Except SemErr Unit :=
  if existsInScope && hasParent then Except.error SemErr.AlreadyDefined
  else Except.ok ()

/-- SymbolTableVisitor::visit_Subroutine (and visit_Function), duplicate-
name check when registering the procedure in the parent scope: the argument
is the ABI of the previously registered procedure of the same name, if any.
The source down-casts the existing symbol to a procedure unconditionally
and shadows it only when its ABI is Interactive; the check never consults
whether the parent scope is the root scope. -/
def procedure_insert_check (existing : Option AbiType) :
    Except SemErr Unit :=
  match existing with
  | none => Except.ok ()
  | some abi =>
      if abi = AbiType.Interactive then Except.ok ()
      else Except.error SemErr.AlreadyDefined

/-- Modelled from the spec: the present helper (utils, not under src/)
tests membership of a module name in a dependency vector; the spec states
the module loader returns a stable symbol per module name, so membership is
name equality. -/
def present (deps : List Name) (name : Name) : Bool := deps.contains name

/-- The dependency-recording step shared by SymbolTableVisitor::visit_Use
and BodyVisitor::visit_FuncCallOrArray (intrinsic-module load): append the
module name to the dependency list only if it is not already present. -/
def add_dependency (deps : List Name) (name : Name) : List Name :=
  if present deps name then deps else deps ++ [name]

/-- BodyVisitor::types_equal: two types are equal for generic dispatch
exactly when their variant tags coincide (kinds are not inspected). -/
def types_equal (a b : Ttype) : Bool := a.tag == b.tag

/-- BodyVisitor::argument_types_match: the actual-argument types match a
subroutine's formal-argument types when the lists have the same length and
corresponding entries are types_equal. -/
def argument_types_match (args subArgs : List Ttype) : Bool :=
  (args.length == subArgs.length) &&
    (List.zip args subArgs).all (fun p => types_equal p.1 p.2)

/-- Worker for select_generic_procedure: scan the specific procedures in
order, keeping the running index; a non-Subroutine specific is an error,
a matching Subroutine returns its index, and exhaustion raises the
no-generic-match error. -/
def select_generic_aux (args : List Ttype) :
    List ProcSpec → Nat → Except SemErr Nat
  | [], _ => Except.error SemErr.NoGenericMatch
  | ProcSpec.subroutine _ subArgs :: rest, i =>
      if argument_types_match args subArgs then Except.ok i
      else select_generic_aux args rest (i + 1)
  | ProcSpec.nonSubroutine _ :: _, _ =>
      Except.error SemErr.GenericNotSubroutine

/-- BodyVisitor::select_generic_procedure: index of the first specific
subroutine whose formal-argument types match the actual-argument types. -/
def select_generic_procedure (args : List Ttype) (procs : List ProcSpec) :
    Except SemErr Nat :=
  select_generic_aux args procs 0

end AstToAsr

namespace AstToAsr

/-- Integer(4), the type of integer literals. -/
def int4T : Ttype := Ttype.mk TtypeTag.Integer 4 0

/-- Integer(8). -/
def int8T : Ttype := Ttype.mk TtypeTag.Integer 8 0

/-- Real(4). -/
def real4T : Ttype := Ttype.mk TtypeTag.Real 4 0

/-- IntegerPointer(4). -/
def intp4T : Ttype := Ttype.mk TtypeTag.IntegerPointer 4 0

/-- RealPointer(4). -/
def realp4T : Ttype := Ttype.mk TtypeTag.RealPointer 4 0

end AstToAsr

namespace AstToAsr

theorem same_or_ptr_iff (s d : Ttype) :
    same_or_ptr s d = true ↔ famIdx s.tag = famIdx d.tag := by
  have h : ∀ a b : TtypeTag,
      (((a == b) || same_type_pointer_tags a b) = true) ↔ famIdx a = famIdx b := by
    decide
  simpa [same_or_ptr] using h s.tag d.tag

theorem ruleLookup_error_iff (a b : TtypeTag) :
    ruleLookup (tagIndex a % 6) (tagIndex b) = CastAction.errorCase ↔
      (famIdx a = 0 ∧ (famIdx b = 3 ∨ famIdx b = 5)) := by
  revert a b; decide

theorem ruleLookup_int_int (a b : TtypeTag) (ha : famIdx a = 0) (hb : famIdx b = 0) :
    ruleLookup (tagIndex a % 6) (tagIndex b) =
      CastAction.castCase CastKind.IntegerToInteger := by
  revert ha hb; revert a b; decide

theorem ruleLookup_int_real (a b : TtypeTag) (ha : famIdx a = 0) (hb : famIdx b = 1) :
    ruleLookup (tagIndex a % 6) (tagIndex b) =
      CastAction.castCase CastKind.IntegerToReal := by
  revert ha hb; revert a b; decide

theorem ruleLookup_int_complex (a b : TtypeTag) (ha : famIdx a = 0) (hb : famIdx b = 2) :
    ruleLookup (tagIndex a % 6) (tagIndex b) =
      CastAction.castCase CastKind.IntegerToComplex := by
  revert ha hb; revert a b; decide

theorem ruleLookup_int_logical (a b : TtypeTag) (ha : famIdx a = 0) (hb : famIdx b = 4) :
    ruleLookup (tagIndex a % 6) (tagIndex b) =
      CastAction.castCase CastKind.IntegerToLogical := by
  revert ha hb; revert a b; decide

theorem ruleLookup_real_int (a b : TtypeTag) (ha : famIdx a = 1) (hb : famIdx b = 0) :
    ruleLookup (tagIndex a % 6) (tagIndex b) =
      CastAction.castCase CastKind.RealToInteger := by
  revert ha hb; revert a b; decide

theorem ruleLookup_real_real (a b : TtypeTag) (ha : famIdx a = 1) (hb : famIdx b = 1) :
    ruleLookup (tagIndex a % 6) (tagIndex b) =
      CastAction.castCase CastKind.RealToReal := by
  revert ha hb; revert a b; decide

theorem ruleLookup_real_complex (a b : TtypeTag) (ha : famIdx a = 1) (hb : famIdx b = 2) :
    ruleLookup (tagIndex a % 6) (tagIndex b) =
      CastAction.castCase CastKind.RealToComplex := by
  revert ha hb; revert a b; decide

theorem ruleLookup_other_default (a b : TtypeTag) (hne : famIdx a ≠ famIdx b)
    (ha : 1 ≤ famIdx a) (hb : famIdx a = 1 → 3 ≤ famIdx b) :
    ruleLookup (tagIndex a % 6) (tagIndex b) = CastAction.defaultCase := by
  revert hne ha hb; revert a b; decide

theorem prio_of_fam0 (a : TtypeTag) (h : famIdx a = 0) : prioTag a = 4 := by
  revert h; revert a; decide

theorem prio_of_fam35 (a : TtypeTag) (h : famIdx a = 3 ∨ famIdx a = 5) :
    prioTag a = -1 := by
  revert h; revert a; decide

theorem consult_rule_illegal_iff (src dst : Ttype) :
    consult_rule src dst = CVOut.illegal ↔
      ruleLookup (tagIndex src.tag % 6) (tagIndex dst.tag) =
        CastAction.errorCase := by
  unfold consult_rule
  cases h : ruleLookup (tagIndex src.tag % 6) (tagIndex dst.tag) <;> simp

theorem consult_rule_cast (src dst : Ttype) (k : CastKind)
    (h : ruleLookup (tagIndex src.tag % 6) (tagIndex dst.tag) =
      CastAction.castCase k) :
    consult_rule src dst = CVOut.casted k dst := by
  unfold consult_rule; rw [h]

theorem consult_rule_default (src dst : Ttype)
    (h : ruleLookup (tagIndex src.tag % 6) (tagIndex dst.tag) =
      CastAction.defaultCase) :
    consult_rule src dst = CVOut.noCast := by
  unfold consult_rule; rw [h]

theorem scv_cross_fam (s d : Ttype) (h : famIdx s.tag ≠ famIdx d.tag) :
    set_converted_value s d = consult_rule s d := by
  unfold set_converted_value
  rw [if_neg]
  intro hg
  exact h ((same_or_ptr_iff s d).mp hg)

theorem scv_same_fam_same_kind (s d : Ttype) (hf : famIdx s.tag = famIdx d.tag)
    (hk : s.kind = d.kind) : set_converted_value s d = CVOut.noCast := by
  unfold set_converted_value
  rw [if_pos ((same_or_ptr_iff s d).mpr hf)]
  split_ifs with h1 h2 h3
  · rfl
  · exact absurd
      (show extract_kind_from_ttype_t d = extract_kind_from_ttype_t s by
        simpa [extract_kind_from_ttype_t] using hk.symm) h2
  · rfl
  · exact absurd
      (show extract_kind_from_ttype_t s = extract_kind_from_ttype_t d by
        simpa [extract_kind_from_ttype_t] using hk) h3

theorem scv_same_fam_ne_kind (s d : Ttype) (hf : famIdx s.tag = famIdx d.tag)
    (hk : s.kind ≠ d.kind) :
    set_converted_value s d = consult_rule s d ∨
      set_converted_value s d = consult_rule d s := by
  unfold set_converted_value
  rw [if_pos ((same_or_ptr_iff s d).mpr hf)]
  split_ifs with h1 h2 h3
  · exact absurd
      (show s.kind = d.kind by
        simpa [extract_kind_from_ttype_t] using h2.symm) hk
  · exact Or.inr rfl
  · exact absurd
      (show s.kind = d.kind by
        simpa [extract_kind_from_ttype_t] using h3) hk
  · exact Or.inl rfl

theorem scv_illegal_imp (s d : Ttype) (h : set_converted_value s d = CVOut.illegal) :
    famIdx s.tag = 0 ∧ (famIdx d.tag = 3 ∨ famIdx d.tag = 5) := by
  by_cases hf : famIdx s.tag = famIdx d.tag
  · by_cases hk : s.kind = d.kind
    · rw [scv_same_fam_same_kind s d hf hk] at h
      cases h
    · rcases scv_same_fam_ne_kind s d hf hk with h2 | h2 <;> rw [h2] at h
      · exact (ruleLookup_error_iff s.tag d.tag).mp
          ((consult_rule_illegal_iff s d).mp h)
      · exfalso
        have h3 := (ruleLookup_error_iff d.tag s.tag).mp
          ((consult_rule_illegal_iff d s).mp h)
        omega
  · rw [scv_cross_fam s d hf] at h
    exact (ruleLookup_error_iff s.tag d.tag).mp ((consult_rule_illegal_iff s d).mp h)

theorem fcc_prio_le (lt rt : Ttype) :
    prioOf (find_conversion_candidate lt rt).2.1 ≤
      prioOf (find_conversion_candidate lt rt).2.2 := by
  unfold find_conversion_candidate
  split_ifs with h
  · simpa using h
  · simp only [not_le] at h
    simpa using le_of_lt h

theorem fcc_no_illegal (lt rt : Ttype) :
    set_converted_value (find_conversion_candidate lt rt).2.1
      (find_conversion_candidate lt rt).2.2 ≠ CVOut.illegal := by
  intro h
  have hps := fcc_prio_le lt rt
  have h2 := scv_illegal_imp _ _ h
  have h3 : prioOf (find_conversion_candidate lt rt).2.1 = 4 :=
    prio_of_fam0 _ h2.1
  have h4 : prioOf (find_conversion_candidate lt rt).2.2 = -1 :=
    prio_of_fam35 _ h2.2
  omega

theorem applyConversion_error_iff (e : Expr) (src dst : Ttype) :
    applyConversion e src dst = Except.error SemErr.IllegalCoercion ↔
      set_converted_value src dst = CVOut.illegal := by
  unfold applyConversion
  cases h : set_converted_value src dst <;> simp

theorem applyConversion_casted (e : Expr) (src dst : Ttype) (k : CastKind)
    (d2 : Ttype) (h : set_converted_value src dst = CVOut.casted k d2) :
    applyConversion e src dst = Except.ok (Expr.ImplicitCast e k d2) := by
  unfold applyConversion; rw [h]

theorem applyConversion_noCast (e : Expr) (src dst : Ttype)
    (h : set_converted_value src dst = CVOut.noCast) :
    applyConversion e src dst = Except.ok e := by
  unfold applyConversion; rw [h]

end AstToAsr

namespace AstToAsr

theorem prio_of_fam1 (a : TtypeTag) (h : famIdx a = 1) : prioTag a = 5 := by
  revert h; revert a; decide

theorem prio_of_fam2 (a : TtypeTag) (h : famIdx a = 2) : prioTag a = 6 := by
  revert h; revert a; decide

theorem prio_of_fam_ge3 (a : TtypeTag) (h : 3 ≤ famIdx a) : prioTag a = -1 := by
  revert h; revert a; decide

/-- C1 (amended): find_conversion_candidate assigns priorities by family
(Integer=4, Real=5, Complex=6, Character/Logical/Derived=-1, pointer
variants sharing their plain counterpart's priority) and picks the operand
of strictly higher priority as the cast destination; when the right
priority is less than or equal to the left priority - in particular on
ties - the LEFT operand's type is the destination and the RIGHT operand is
the conversion candidate; only when the right priority is strictly greater
is the left operand the candidate. -/
theorem claim_C1_theorem (left_type right_type : Ttype) :
    ((famIdx left_type.tag = 0 → prioOf left_type = 4) ∧
     (famIdx left_type.tag = 1 → prioOf left_type = 5) ∧
     (famIdx left_type.tag = 2 → prioOf left_type = 6) ∧
     (3 ≤ famIdx left_type.tag → prioOf left_type = -1)) ∧
    (prioOf right_type ≤ prioOf left_type →
       find_conversion_candidate left_type right_type =
         (Side.right, right_type, left_type)) ∧
    (prioOf left_type < prioOf right_type →
       find_conversion_candidate left_type right_type =
         (Side.left, left_type, right_type)) := by
  refine ⟨⟨?_, ?_, ?_, ?_⟩, ?_, ?_⟩
  · exact fun h => prio_of_fam0 _ h
  · exact fun h => prio_of_fam1 _ h
  · exact fun h => prio_of_fam2 _ h
  · exact fun h => prio_of_fam_ge3 _ h
  · intro h
    unfold find_conversion_candidate
    rw [if_pos h]
  · intro h
    unfold find_conversion_candidate
    rw [if_neg (not_le.mpr h)]

/-- C1 (counterexample): on two operands of equal priority - Integer(4) on
the left and Integer(8) on the right - the engine picks the LEFT type as
the destination and casts the RIGHT operand, contradicting the claim that
on equal priorities R is the destination and L is cast. -/
theorem claim_C1_counterexample :
    prioOf int4T = prioOf int8T ∧
    find_conversion_candidate int4T int8T = (Side.right, int8T, int4T) ∧
    Side.right ≠ Side.left ∧ int4T ≠ int8T := by decide

/-- C1 (witness): the amended theorem applied to Real(4) and Integer(4):
the right priority 4 is at most the left priority 5, so the right operand
is the candidate and Real(4) is the destination. -/
theorem claim_C1_witness :
    find_conversion_candidate real4T int4T = (Side.right, int4T, real4T) :=
  (claim_C1_theorem real4T int4T).2.1 (by decide)

/-- C2 (confirmed): when the rule table is consulted - the source and
destination are not a same-family pair with equal kinds - the conversion
raises IllegalCoercion exactly when the source family is Integer and the
destination family is Character or Derived; Integer to
Integer/Real/Complex/Logical and Real to Integer/Real/Complex wrap the
expression in an ImplicitCast of the corresponding cast kind, and every
other cross-family pair inserts no cast. -/
theorem claim_C2_theorem (e : Expr) (src dst : Ttype)
    (h : ¬ (famIdx src.tag = famIdx dst.tag ∧ src.kind = dst.kind)) :
    (applyConversion e src dst = Except.error SemErr.IllegalCoercion ↔
       (famIdx src.tag = 0 ∧ (famIdx dst.tag = 3 ∨ famIdx dst.tag = 5))) ∧
    (famIdx src.tag = 0 → famIdx dst.tag = 0 →
       ∃ d2, applyConversion e src dst =
         Except.ok (Expr.ImplicitCast e CastKind.IntegerToInteger d2)) ∧
    (famIdx src.tag = 0 → famIdx dst.tag = 1 →
       applyConversion e src dst =
         Except.ok (Expr.ImplicitCast e CastKind.IntegerToReal dst)) ∧
    (famIdx src.tag = 0 → famIdx dst.tag = 2 →
       applyConversion e src dst =
         Except.ok (Expr.ImplicitCast e CastKind.IntegerToComplex dst)) ∧
    (famIdx src.tag = 0 → famIdx dst.tag = 4 →
       applyConversion e src dst =
         Except.ok (Expr.ImplicitCast e CastKind.IntegerToLogical dst)) ∧
    (famIdx src.tag = 1 → famIdx dst.tag = 0 →
       applyConversion e src dst =
         Except.ok (Expr.ImplicitCast e CastKind.RealToInteger dst)) ∧
    (famIdx src.tag = 1 → famIdx dst.tag = 1 →
       ∃ d2, applyConversion e src dst =
         Except.ok (Expr.ImplicitCast e CastKind.RealToReal d2)) ∧
    (famIdx src.tag = 1 → famIdx dst.tag = 2 →
       applyConversion e src dst =
         Except.ok (Expr.ImplicitCast e CastKind.RealToComplex dst)) ∧
    (famIdx src.tag ≠ famIdx dst.tag → 1 ≤ famIdx src.tag →
       (famIdx src.tag = 1 → 3 ≤ famIdx dst.tag) →
       applyConversion e src dst = Except.ok e) := by
  refine ⟨?_, ?_, ?_, ?_, ?_, ?_, ?_, ?_, ?_⟩
  · rw [applyConversion_error_iff]
    constructor
    · exact scv_illegal_imp src dst
    · rintro ⟨h0, h35⟩
      have hne : famIdx src.tag ≠ famIdx dst.tag := by omega
      rw [scv_cross_fam src dst hne]
      unfold consult_rule
      rw [(ruleLookup_error_iff src.tag dst.tag).mpr ⟨h0, h35⟩]
  · intro h0 hd0
    have hf : famIdx src.tag = famIdx dst.tag := by omega
    have hk : src.kind ≠ dst.kind := fun hkk => h ⟨hf, hkk⟩
    rcases scv_same_fam_ne_kind src dst hf hk with h2 | h2
    · exact ⟨dst, applyConversion_casted e src dst _ dst
        (by rw [h2]
            exact consult_rule_cast src dst _ (ruleLookup_int_int _ _ h0 hd0))⟩
    · exact ⟨src, applyConversion_casted e src dst _ src
        (by rw [h2]
            exact consult_rule_cast dst src _ (ruleLookup_int_int _ _ hd0 h0))⟩
  · intro h0 hd1
    have hne : famIdx src.tag ≠ famIdx dst.tag := by omega
    exact applyConversion_casted e src dst _ dst
      (by rw [scv_cross_fam src dst hne]
          exact consult_rule_cast src dst _ (ruleLookup_int_real _ _ h0 hd1))
  · intro h0 hd2
    have hne : famIdx src.tag ≠ famIdx dst.tag := by omega
    exact applyConversion_casted e src dst _ dst
      (by rw [scv_cross_fam src dst hne]
          exact consult_rule_cast src dst _ (ruleLookup_int_complex _ _ h0 hd2))
  · intro h0 hd4
    have hne : famIdx src.tag ≠ famIdx dst.tag := by omega
    exact applyConversion_casted e src dst _ dst
      (by rw [scv_cross_fam src dst hne]
          exact consult_rule_cast src dst _ (ruleLookup_int_logical _ _ h0 hd4))
  · intro h1 hd0
    have hne : famIdx src.tag ≠ famIdx dst.tag := by omega
    exact applyConversion_casted e src dst _ dst
      (by rw [scv_cross_fam src dst hne]
          exact consult_rule_cast src dst _ (ruleLookup_real_int _ _ h1 hd0))
  · intro h1 hd1
    have hf : famIdx src.tag = famIdx dst.tag := by omega
    have hk : src.kind ≠ dst.kind := fun hkk => h ⟨hf, hkk⟩
    rcases scv_same_fam_ne_kind src dst hf hk with h2 | h2
    · exact ⟨dst, applyConversion_casted e src dst _ dst
        (by rw [h2]
            exact consult_rule_cast src dst _ (ruleLookup_real_real _ _ h1 hd1))⟩
    · exact ⟨src, applyConversion_casted e src dst _ src
        (by rw [h2]
            exact consult_rule_cast dst src _ (ruleLookup_real_real _ _ hd1 h1))⟩
  · intro h1 hd2
    have hne : famIdx src.tag ≠ famIdx dst.tag := by omega
    exact applyConversion_casted e src dst _ dst
      (by rw [scv_cross_fam src dst hne]
          exact consult_rule_cast src dst _ (ruleLookup_real_complex _ _ h1 hd2))
  · intro hne h1le h1imp
    exact applyConversion_noCast e src dst
      (by rw [scv_cross_fam src dst hne]
          exact consult_rule_default src dst
            (ruleLookup_other_default _ _ hne h1le h1imp))

/-- C2 (witness): the theorem applied with source Integer(4) and
destination Real(4): the rule table is consulted (different families) and
the expression is wrapped in an ImplicitCast of kind IntegerToReal. -/
theorem claim_C2_witness :
    applyConversion (Expr.ConstantInteger 2 int4T) int4T real4T =
      Except.ok (Expr.ImplicitCast (Expr.ConstantInteger 2 int4T)
        CastKind.IntegerToReal real4T) :=
  (claim_C2_theorem (Expr.ConstantInteger 2 int4T) int4T real4T
    (by decide)).2.2.1 (by decide) (by decide)

end AstToAsr

namespace AstToAsr

/-- C3 (amended): for every binary operation on arbitrary lowered
operands, the BinOp node carries a folded constant value exactly when,
after the implicit-conversion step, both operands still carry
constant-integer values and the destination type's tag is Integer; an
operand wrapped by an inserted ImplicitCast carries no constant value, so
in particular mixed-kind constant-integer operands are not folded. When
folding occurs, the value for +, -, * and / is the operation's result in
wrap-around 64-bit two's-complement arithmetic (division truncating toward
zero), which equals the exact integer result whenever that result lies in
the signed 64-bit range; ** goes through C's double-precision pow (the
powImpl parameter) and is not claimed exact. Lowering i = 2 + 3 yields an
assignment whose RHS is a BinOp carrying the folded constant integer 5,
with no cast node inserted anywhere. -/
theorem claim_C3_theorem :
    (∀ (powImpl : Int → Int → Int) (op : Binop) (left right : Expr)
       (ln rn : Int) (lty rty : Ttype),
       expr_value left = some (FoldVal.intVal ln lty) →
       expr_value right = some (FoldVal.intVal rn rty) →
       set_converted_value
           (find_conversion_candidate (expr_type left) (expr_type right)).2.1
           (find_conversion_candidate (expr_type left) (expr_type right)).2.2 =
         CVOut.noCast →
       (find_conversion_candidate (expr_type left)
           (expr_type right)).2.2.tag = TtypeTag.Integer →
       visit_BinOp powImpl op left right =
         Except.ok (Expr.BinOp left op right
           (find_conversion_candidate (expr_type left) (expr_type right)).2.2
           (some (FoldVal.intVal (foldOp powImpl op ln rn)
             (find_conversion_candidate (expr_type left)
               (expr_type right)).2.2)))) ∧
    (∀ (powImpl : Int → Int → Int) (a b : Int),
       foldOp powImpl Binop.Add a b = wrap64 (a + b) ∧
       foldOp powImpl Binop.Sub a b = wrap64 (a - b) ∧
       foldOp powImpl Binop.Mul a b = wrap64 (a * b) ∧
       foldOp powImpl Binop.Div a b = wrap64 (Int.tdiv a b)) ∧
    (∀ (powImpl : Int → Int → Int) (op : Binop) (left right l2 r2 : Expr)
       (dst : Ttype) (v : Option FoldVal),
       visit_BinOp powImpl op left right =
         Except.ok (Expr.BinOp l2 op r2 dst v) →
       v ≠ none →
       dst.tag = TtypeTag.Integer ∧
       ∃ ln lty rn rty, expr_value l2 = some (FoldVal.intVal ln lty) ∧
         expr_value r2 = some (FoldVal.intVal rn rty) ∧
         v = some (FoldVal.intVal (foldOp powImpl op ln rn) dst)) ∧
    (∀ n : Int, -(2 ^ 63) ≤ n → n < 2 ^ 63 → wrap64 n = n) ∧
    (visit_Num 2 = Except.ok (Expr.ConstantInteger 2 int4T) ∧
     visit_Num 3 = Except.ok (Expr.ConstantInteger 3 int4T) ∧
     visit_BinOp powModel Binop.Add (Expr.ConstantInteger 2 int4T)
         (Expr.ConstantInteger 3 int4T) =
       Except.ok (Expr.BinOp (Expr.ConstantInteger 2 int4T) Binop.Add
         (Expr.ConstantInteger 3 int4T) int4T
         (some (FoldVal.intVal 5 int4T))) ∧
     visit_Assignment (Expr.Var 0 int4T)
         (Expr.BinOp (Expr.ConstantInteger 2 int4T) Binop.Add
           (Expr.ConstantInteger 3 int4T) int4T
           (some (FoldVal.intVal 5 int4T))) =
       Except.ok (Stmt.Assignment (Expr.Var 0 int4T)
         (Expr.BinOp (Expr.ConstantInteger 2 int4T) Binop.Add
           (Expr.ConstantInteger 3 int4T) int4T
           (some (FoldVal.intVal 5 int4T)))) ∧
     isImplicitCastE (Expr.BinOp (Expr.ConstantInteger 2 int4T) Binop.Add
       (Expr.ConstantInteger 3 int4T) int4T
       (some (FoldVal.intVal 5 int4T))) = false ∧
     visit_BinOp powModel Binop.Add (Expr.ConstantInteger 1 int8T)
         (Expr.ConstantInteger 1 int4T) =
       Except.ok (Expr.BinOp (Expr.ConstantInteger 1 int8T) Binop.Add
         (Expr.ImplicitCast (Expr.ConstantInteger 1 int4T)
           CastKind.IntegerToInteger int8T)
         int8T none)) := by
  refine ⟨?_, ?_, ?_, ?_, ?_⟩
  · intro powImpl op left right ln rn lty rty hl hr hcv hdst
    rcases h1 : (find_conversion_candidate (expr_type left)
        (expr_type right)).1 with _ | _ <;>
      simp [visit_BinOp, applyConversion, h1, hcv, hl, hr, hdst]
  · intro powImpl a b
    exact ⟨rfl, rfl, rfl, rfl⟩
  · intro powImpl op left right l2 r2 dst v h hv
    rcases h1 : (find_conversion_candidate (expr_type left)
        (expr_type right)).1 with _ | _ <;>
      rcases h2 : set_converted_value
          (find_conversion_candidate (expr_type left) (expr_type right)).2.1
          (find_conversion_candidate (expr_type left) (expr_type right)).2.2
        with _ | ⟨k, d⟩ | _ <;>
      simp [visit_BinOp, applyConversion, h1, h2] at h
    · obtain ⟨hl2, hr2, hD, hV⟩ := h
      subst hl2; subst hr2; subst hD; subst hV
      rcases hL : expr_value left with _ | lv <;>
        rcases hR : expr_value right with _ | rv <;>
        simp [hL, hR] at hv ⊢
      cases lv with
      | otherVal => simp at hv
      | intVal ln lty =>
          cases rv with
          | otherVal => simp at hv
          | intVal rn rty =>
              by_cases hP : (find_conversion_candidate (expr_type left)
                (expr_type right)).2.2.tag = TtypeTag.Integer
              · simp [hP]
              · simp [hP] at hv
    · obtain ⟨hl2, hr2, hD, hV⟩ := h
      subst hl2; subst hr2; subst hD; subst hV
      rcases hR : expr_value right with _ | rv <;>
        simp [expr_value, hR] at hv
    · obtain ⟨hl2, hr2, hD, hV⟩ := h
      subst hl2; subst hr2; subst hD; subst hV
      rcases hL : expr_value left with _ | lv <;>
        rcases hR : expr_value right with _ | rv <;>
        simp [hL, hR] at hv ⊢
      cases lv with
      | otherVal => simp at hv
      | intVal ln lty =>
          cases rv with
          | otherVal => simp at hv
          | intVal rn rty =>
              by_cases hP : (find_conversion_candidate (expr_type left)
                (expr_type right)).2.2.tag = TtypeTag.Integer
              · simp [hP]
              · simp [hP] at hv
    · obtain ⟨hl2, hr2, hD, hV⟩ := h
      subst hl2; subst hr2; subst hD; subst hV
      rcases hL : expr_value left with _ | lv <;>
        simp [expr_value, hL] at hv
  · intro n h1 h2
    unfold wrap64
    rw [Int.emod_eq_of_lt (by omega) (by omega)]
    omega
  · exact ⟨by decide, by decide, by decide, by decide, by decide, by decide⟩

/-- C3 (counterexample): multiplying the constant integers 2^32 and 2^32
with Integer destination folds to 0, not to the exact integer result 2^64:
the folded value is computed in wrap-around 64-bit arithmetic. -/
theorem claim_C3_counterexample :
    visit_BinOp powModel Binop.Mul (Expr.ConstantInteger (2 ^ 32) int4T)
        (Expr.ConstantInteger (2 ^ 32) int4T) =
      Except.ok (Expr.BinOp (Expr.ConstantInteger (2 ^ 32) int4T) Binop.Mul
        (Expr.ConstantInteger (2 ^ 32) int4T) int4T
        (some (FoldVal.intVal 0 int4T))) ∧
    (0 : Int) ≠ 2 ^ 32 * 2 ^ 32 := by decide

/-- C3 (witness): the general folding clause applied to a literal operand
2 and a right operand that is itself a BinOp carrying the folded constant
12 (as in 2 + 3*4): both operands carry constant-integer values, no cast
is inserted, the destination is Integer(4), and the node folds to 14. -/
theorem claim_C3_witness :
    visit_BinOp powModel Binop.Add (Expr.ConstantInteger 2 int4T)
        (Expr.BinOp (Expr.ConstantInteger 3 int4T) Binop.Mul
          (Expr.ConstantInteger 4 int4T) int4T
          (some (FoldVal.intVal 12 int4T))) =
      Except.ok (Expr.BinOp (Expr.ConstantInteger 2 int4T) Binop.Add
        (Expr.BinOp (Expr.ConstantInteger 3 int4T) Binop.Mul
          (Expr.ConstantInteger 4 int4T) int4T
          (some (FoldVal.intVal 12 int4T)))
        int4T (some (FoldVal.intVal 14 int4T))) := by
  have h := claim_C3_theorem.1 powModel Binop.Add
    (Expr.ConstantInteger 2 int4T)
    (Expr.BinOp (Expr.ConstantInteger 3 int4T) Binop.Mul
      (Expr.ConstantInteger 4 int4T) int4T
      (some (FoldVal.intVal 12 int4T)))
    2 12 int4T int4T rfl rfl (by decide) (by decide)
  simpa using h

/-- C4 (amended): lowering an assignment fails with
InvalidAssignmentTarget unless the lowered LHS is a Var, ArrayRef or
DerivedRef. On success the lowered RHS is passed through the implicit-
conversion engine (which may wrap it in a cast) only when the target is a
Var or ArrayRef; a DerivedRef target receives the RHS unchanged, with no
cast even when the types differ. Assigning a ConstantArray value to a
non-array target is an error only when that target is a Var. -/
theorem claim_C4_theorem (target value : Expr) :
    (isVarE target = false → isArrayRefE target = false →
       isDerivedRefE target = false →
       visit_Assignment target value =
         Except.error SemErr.InvalidAssignmentTarget) ∧
    (∀ n m ty, target = Expr.DerivedRef n m ty →
       visit_Assignment target value =
         Except.ok (Stmt.Assignment target value)) ∧
    (∀ n ty, target = Expr.Var n ty → is_array ty = false →
       isConstantArrayE value = true →
       visit_Assignment target value =
         Except.error SemErr.ConstantArrayTarget) ∧
    (∀ n ty, target = Expr.Var n ty →
       (is_array ty = true ∨ isConstantArrayE value = false) →
       visit_Assignment target value =
         Except.map (Stmt.Assignment target)
           (applyConversion value (expr_type value) ty)) ∧
    (∀ n ty, target = Expr.ArrayRef n ty →
       visit_Assignment target value =
         Except.map (Stmt.Assignment target)
           (applyConversion value (expr_type value) ty)) := by
  refine ⟨?_, ?_, ?_, ?_, ?_⟩
  · intro h1 h2 h3
    simp [visit_Assignment, h1, h2, h3]
  · intro n m ty h
    subst h
    simp [visit_Assignment, isVarE, isArrayRefE, isDerivedRefE]
  · intro n ty h ha hc
    subst h
    simp [visit_Assignment, isVarE, isArrayRefE, isDerivedRefE, expr_type,
      ha, hc]
  · intro n ty h hd
    subst h
    have he : expr_type (Expr.Var n ty) = ty := rfl
    rcases hd with hd | hd <;>
      cases hA : applyConversion value (expr_type value) ty <;>
        simp [visit_Assignment, isVarE, isArrayRefE, isDerivedRefE,
          he, hd, hA, Except.map]
  · intro n ty h
    subst h
    have he : expr_type (Expr.ArrayRef n ty) = ty := rfl
    cases hA : applyConversion value (expr_type value) ty <;>
      simp [visit_Assignment, isVarE, isArrayRefE, isDerivedRefE,
        he, hA, Except.map]

/-- C4 (counterexample): assigning an Integer(4) variable reference to a
Real(4) derived-type member reference succeeds with the RHS unchanged: no
implicit cast is inserted although the types differ, contradicting the
claim that on success a cast of the RHS to the LHS type is inserted
whenever the types differ. -/
theorem claim_C4_counterexample :
    visit_Assignment (Expr.DerivedRef 0 1 real4T) (Expr.Var 2 int4T) =
      Except.ok (Stmt.Assignment (Expr.DerivedRef 0 1 real4T)
        (Expr.Var 2 int4T)) ∧
    isImplicitCastE (Expr.Var 2 int4T) = false ∧
    expr_type (Expr.Var 2 int4T) ≠ expr_type (Expr.DerivedRef 0 1 real4T) := by
  decide

/-- C4 (witness): the amended theorem applied to a constant-integer target:
the LHS is none of Var, ArrayRef or DerivedRef, so lowering fails with
InvalidAssignmentTarget. -/
theorem claim_C4_witness :
    visit_Assignment (Expr.ConstantInteger 1 int4T)
        (Expr.ConstantInteger 2 int4T) =
      Except.error SemErr.InvalidAssignmentTarget :=
  (claim_C4_theorem (Expr.ConstantInteger 1 int4T)
    (Expr.ConstantInteger 2 int4T)).1 (by decide) (by decide) (by decide)

end AstToAsr

namespace AstToAsr

theorem argument_types_match_iff (args subArgs : List Ttype) :
    argument_types_match args subArgs = true ↔
      (args.length = subArgs.length ∧
       List.Forall₂ (fun a b : Ttype => a.tag = b.tag) args subArgs) := by
  unfold argument_types_match
  rw [Bool.and_eq_true, beq_iff_eq, List.all_eq_true]
  constructor
  · rintro ⟨hlen, hall⟩
    refine ⟨hlen, ?_⟩
    rw [List.forall₂_iff_zip]
    refine ⟨hlen, ?_⟩
    intro a b hab
    have h2 := hall (a, b) hab
    simpa [types_equal, beq_iff_eq] using h2
  · rintro ⟨hlen, hf⟩
    rw [List.forall₂_iff_zip] at hf
    refine ⟨hlen, ?_⟩
    intro p hp
    obtain ⟨a, b⟩ := p
    simpa [types_equal, beq_iff_eq] using hf.2 hp

theorem select_generic_aux_ok (args : List Ttype) (procs : List ProcSpec) :
    ∀ j i : Nat, select_generic_aux args procs j = Except.ok i →
      j ≤ i ∧ ∃ nm subArgs,
        procs.get? (i - j) = some (ProcSpec.subroutine nm subArgs) ∧
        argument_types_match args subArgs = true := by
  induction procs with
  | nil =>
      intro j i h
      simp [select_generic_aux] at h
  | cons p rest ih =>
      intro j i h
      cases p with
      | subroutine nm subArgs =>
          by_cases hm : argument_types_match args subArgs = true
          · rw [select_generic_aux, if_pos hm] at h
            have hji : j = i := by
              injection h
            subst hji
            exact ⟨le_refl j, nm, subArgs, by simp, hm⟩
          · rw [select_generic_aux, if_neg hm] at h
            obtain ⟨hle, nm2, sa2, hget, hm2⟩ := ih (j + 1) i h
            refine ⟨by omega, nm2, sa2, ?_, hm2⟩
            have hij : i - j = (i - (j + 1)) + 1 := by omega
            rw [hij]
            simpa using hget
      | nonSubroutine nm =>
          simp [select_generic_aux] at h

theorem select_generic_aux_fail (args : List Ttype) (procs : List ProcSpec)
    (hall : ∀ p ∈ procs, ∃ nm subArgs, p = ProcSpec.subroutine nm subArgs)
    (hno : ∀ nm subArgs, ProcSpec.subroutine nm subArgs ∈ procs →
      argument_types_match args subArgs = false) :
    ∀ j, select_generic_aux args procs j =
      Except.error SemErr.NoGenericMatch := by
  induction procs with
  | nil =>
      intro j
      simp [select_generic_aux]
  | cons p rest ih =>
      intro j
      cases p with
      | subroutine nm subArgs =>
          have hm := hno nm subArgs (List.mem_cons_self _ _)
          rw [select_generic_aux, if_neg (by simp [hm])]
          exact ih (fun q hq => hall q (List.mem_cons_of_mem _ hq))
            (fun nm2 sa2 hmem => hno nm2 sa2 (List.mem_cons_of_mem _ hmem))
            (j + 1)
      | nonSubroutine nm =>
          obtain ⟨nm2, sa2, heq⟩ := hall _ (List.mem_cons_self _ _)
          simp at heq

/-- C5 (amended): generic subroutine dispatch selects a specific procedure
whose formal-argument list has the same length as the actual-argument list
and whose formal types equal the actual types pairwise by full type variant
tag - family together with pointerness - while kinds are never compared; a
plain Integer actual does NOT match an IntegerPointer formal although the
two share a family. When every specific is a subroutine and none matches,
the NoGenericMatch error is raised. -/
theorem claim_C5_theorem (args : List Ttype) (procs : List ProcSpec) :
    (∀ a b : Ttype, types_equal a b = true ↔ a.tag = b.tag) ∧
    (∀ subArgs : List Ttype, argument_types_match args subArgs = true ↔
       (args.length = subArgs.length ∧
        List.Forall₂ (fun a b : Ttype => a.tag = b.tag) args subArgs)) ∧
    (∀ i, select_generic_procedure args procs = Except.ok i →
       ∃ nm subArgs,
         procs.get? i = some (ProcSpec.subroutine nm subArgs) ∧
         args.length = subArgs.length ∧
         List.Forall₂ (fun a b : Ttype => a.tag = b.tag) args subArgs) ∧
    ((∀ p ∈ procs, ∃ nm subArgs, p = ProcSpec.subroutine nm subArgs) →
     (∀ nm subArgs, ProcSpec.subroutine nm subArgs ∈ procs →
        argument_types_match args subArgs = false) →
     select_generic_procedure args procs =
       Except.error SemErr.NoGenericMatch) := by
  refine ⟨?_, ?_, ?_, ?_⟩
  · intro a b
    simp [types_equal, beq_iff_eq]
  · intro subArgs
    exact argument_types_match_iff args subArgs
  · intro i h
    obtain ⟨hle, nm, sa, hget, hm⟩ := select_generic_aux_ok args procs 0 i h
    rw [argument_types_match_iff] at hm
    exact ⟨nm, sa, by simpa using hget, hm.1, hm.2⟩
  · intro hall hno
    exact select_generic_aux_fail args procs hall hno 0

/-- C5 (counterexample): with actual argument Integer(4) and a single
specific subroutine expecting IntegerPointer(4) - same family, same kind,
different variant tag - selection raises NoGenericMatch, although matching
by type family only (as the claim states) would succeed. -/
theorem claim_C5_counterexample :
    select_generic_procedure [int4T] [ProcSpec.subroutine 0 [intp4T]] =
      Except.error SemErr.NoGenericMatch ∧
    famIdx int4T.tag = famIdx intp4T.tag ∧
    int4T.kind = intp4T.kind := by decide

/-- C5 (witness): the amended theorem applied to actual argument Real(4)
against one specific subroutine expecting Integer(4): every specific is a
subroutine and none matches, so NoGenericMatch is raised. -/
theorem claim_C5_witness :
    select_generic_procedure [real4T] [ProcSpec.subroutine 5 [int4T]] =
      Except.error SemErr.NoGenericMatch :=
  (claim_C5_theorem [real4T] [ProcSpec.subroutine 5 [int4T]]).2.2.2
    (by
      intro p hp
      rw [List.mem_singleton] at hp
      exact ⟨5, [int4T], hp⟩)
    (by
      intro nm subArgs hmem
      rw [List.mem_singleton] at hmem
      cases hmem
      decide)

end AstToAsr

namespace AstToAsr

/-- C6 (confirmed): the use-import step never creates a chained
ExternalSymbol: assuming the remote symbol satisfies the no-chaining
invariant, every symbol it creates is an ExternalSymbol that again
satisfies it, and when the remote symbol is itself an ExternalSymbol the
created record is re-packed - it carries the remote record's own name,
target, module name, original name and access, so it points directly at
the ultimate target instead of chaining. -/
theorem claim_C6_theorem (module_name local_sym : Name) (existsLocal : Bool)
    (remote s : Symbol) (hchain : chainFree remote)
    (h : importUseSymbol module_name remote local_sym existsLocal =
      Except.ok s) :
    isExternalS s = true ∧ chainFree s ∧
    (∀ n t m o a, remote = Symbol.ExternalSymbol n t m o a →
       s = Symbol.ExternalSymbol n t m o a) := by
  cases existsLocal with
  | true =>
      cases remote <;> simp [importUseSymbol] at h
  | false =>
      cases remote with
      | Variable n ty =>
          simp [importUseSymbol] at h
          subst h
          exact ⟨rfl, by simp [chainFree, isExternalS],
            fun n2 t2 m2 o2 a2 hbad => by simp at hbad⟩
      | Subroutine n abi =>
          simp [importUseSymbol] at h
          subst h
          exact ⟨rfl, by simp [chainFree, isExternalS],
            fun n2 t2 m2 o2 a2 hbad => by simp at hbad⟩
      | Function n abi =>
          simp [importUseSymbol] at h
          subst h
          exact ⟨rfl, by simp [chainFree, isExternalS],
            fun n2 t2 m2 o2 a2 hbad => by simp at hbad⟩
      | GenericProcedure n procs =>
          simp [importUseSymbol] at h
          subst h
          exact ⟨rfl, by simp [chainFree, isExternalS],
            fun n2 t2 m2 o2 a2 hbad => by simp at hbad⟩
      | DerivedType n =>
          simp [importUseSymbol] at h
          subst h
          exact ⟨rfl, by simp [chainFree, isExternalS],
            fun n2 t2 m2 o2 a2 hbad => by simp at hbad⟩
      | Module n =>
          simp [importUseSymbol] at h
      | ExternalSymbol n t m o a =>
          simp [importUseSymbol] at h
          subst h
          refine ⟨rfl, ?_, ?_⟩
          · simpa [chainFree] using hchain
          · intro n2 t2 m2 o2 a2 heq
            cases heq
            rfl

/-- C6 (witness): importing a remote ExternalSymbol that targets a plain
subroutine produces a re-packed record whose target is that subroutine, so
the result still satisfies the no-chaining invariant. -/
theorem claim_C6_witness :
    chainFree (Symbol.ExternalSymbol 7 (Symbol.Subroutine 7 AbiType.Source)
      3 7 Access.Private) :=
  (claim_C6_theorem 9 8 false
    (Symbol.ExternalSymbol 7 (Symbol.Subroutine 7 AbiType.Source) 3 7
      Access.Private)
    (Symbol.ExternalSymbol 7 (Symbol.Subroutine 7 AbiType.Source) 3 7
      Access.Private)
    (by simp [chainFree, isExternalS]) (by decide)).2.1

/-- C7 (amended): re-declaring a VARIABLE name succeeds by overwrite at the
root scope and fails with AlreadyDefined in any scope with a parent;
re-declaring a SUBROUTINE or FUNCTION consults only the prior procedure's
ABI - in every scope, the root scope included, it fails with AlreadyDefined
unless the existing procedure was declared with interactive ABI, in which
case the new declaration shadows it. -/
theorem claim_C7_theorem :
    (∀ hasParent : Bool, declaration_insert_check false hasParent =
       Except.ok ()) ∧
    declaration_insert_check true false = Except.ok () ∧
    declaration_insert_check true true =
      Except.error SemErr.AlreadyDefined ∧
    procedure_insert_check none = Except.ok () ∧
    procedure_insert_check (some AbiType.Interactive) = Except.ok () ∧
    (∀ abi : AbiType, abi ≠ AbiType.Interactive →
       procedure_insert_check (some abi) =
         Except.error SemErr.AlreadyDefined) := by
  decide

/-- C7 (counterexample): inserting a subroutine over an existing
source-ABI subroutine of the same name fails with AlreadyDefined; the
check never consults whether the scope is the root scope, so this is the
outcome at the root scope as well, contradicting the claim that a
redeclaration at the root scope succeeds by overwrite. -/
theorem claim_C7_counterexample :
    procedure_insert_check (some AbiType.Source) =
      Except.error SemErr.AlreadyDefined ∧
    procedure_insert_check (some AbiType.Source) ≠ Except.ok () := by
  decide

/-- C7 (witness): the amended theorem applied to an existing intrinsic-ABI
procedure: the ABI is not interactive, so insertion fails. -/
theorem claim_C7_witness :
    procedure_insert_check (some AbiType.Intrinsic) =
      Except.error SemErr.AlreadyDefined :=
  claim_C7_theorem.2.2.2.2.2 AbiType.Intrinsic (by decide)

/-- C8 (confirmed): the dependency-recording step appends the module name
only when it is not already present, so it preserves freedom from
duplicates, is the identity when the name is present, and always leaves
the name a member of the list. -/
theorem claim_C8_theorem (deps : List Name) (name : Name) :
    (List.Nodup deps → List.Nodup (add_dependency deps name)) ∧
    (present deps name = true → add_dependency deps name = deps) ∧
    (present deps name = false →
       add_dependency deps name = deps ++ [name]) ∧
    name ∈ add_dependency deps name := by
  have hmem : present deps name = true ↔ name ∈ deps := by
    simp [present, List.contains, List.elem_eq_mem]
  by_cases hp : present deps name = true
  · rw [add_dependency, if_pos hp]
    exact ⟨fun h => h, fun _ => rfl,
      fun hf => absurd hp (by simp [hf]), hmem.mp hp⟩
  · have hnmem : name ∉ deps := fun hm => hp (hmem.mpr hm)
    rw [add_dependency, if_neg hp]
    refine ⟨?_, fun habs => absurd habs hp, fun _ => rfl, by simp⟩
    intro hnd
    rw [List.nodup_append]
    exact ⟨hnd, List.nodup_singleton name,
      by simpa [List.disjoint_singleton] using hnmem⟩

/-- C8 (witness): the theorem applied to a list already containing the
module name: the step is the identity. -/
theorem claim_C8_witness : add_dependency [3] 3 = [3] :=
  (claim_C8_theorem [3] 3).2.1 (by decide)

/-- C9 (code bug): on a pointer-association whose target is a Real pointer
and whose value is a plain Integer - so the pointer/non-pointer checks
pass but the base families differ - the lowering neither produces an
Associate node nor raises an error: the source falls through without
assigning tmp, while the claim (and the spec) require a structured error
for the base-type mismatch. -/
theorem claim_C9_theorem :
    is_pointer (expr_type (Expr.Var 0 realp4T)).tag = true ∧
    is_pointer (expr_type (Expr.Var 1 int4T)).tag = false ∧
    famIdx (expr_type (Expr.Var 0 realp4T)).tag ≠
      famIdx (expr_type (Expr.Var 1 int4T)).tag ∧
    visit_Associate (Expr.Var 0 realp4T) (Expr.Var 1 int4T) =
      Except.ok none := by decide

theorem compare_reject_iff (lt rt : Ttype) (op : Cmpop) :
    compare_reject lt rt op = true ↔
      ((lt.tag ≠ TtypeTag.Real ∧ lt.tag ≠ TtypeTag.Integer) ∧
       (rt.tag ≠ TtypeTag.Real ∧ rt.tag ≠ TtypeTag.Integer) ∧
       ¬(lt.tag = TtypeTag.Complex ∧ rt.tag = TtypeTag.Complex) ∧
       op ≠ Cmpop.CEq ∧ op ≠ Cmpop.NotEq) := by
  unfold compare_reject
  simp only [Bool.and_eq_true, Bool.or_eq_true, Bool.not_eq_true',
    beq_eq_false_iff_ne]
  tauto

theorem visit_Compare_ok_shape (op : Cmpop) (left right : Expr)
    (hc : compare_reject (expr_type left) (expr_type right) op = false) :
    ∃ l2 r2, visit_Compare op left right =
      Except.ok (Expr.Compare l2 op r2
        (Ttype.mk TtypeTag.Logical 4 0) none) := by
  have hni := fcc_no_illegal (expr_type left) (expr_type right)
  rcases h1 : (find_conversion_candidate (expr_type left)
      (expr_type right)).1 with _ | _ <;>
    rcases h2 : set_converted_value
        (find_conversion_candidate (expr_type left) (expr_type right)).2.1
        (find_conversion_candidate (expr_type left) (expr_type right)).2.2
      with _ | ⟨k, d⟩ | _
  · exact ⟨left, right, by
      simp [visit_Compare, hc, h1, h2, applyConversion]⟩
  · exact ⟨Expr.ImplicitCast left k d, right, by
      simp [visit_Compare, hc, h1, h2, applyConversion]⟩
  · exact absurd h2 hni
  · exact ⟨left, right, by
      simp [visit_Compare, hc, h1, h2, applyConversion]⟩
  · exact ⟨left, Expr.ImplicitCast right k d, by
      simp [visit_Compare, hc, h1, h2, applyConversion]⟩
  · exact absurd h2 hni

/-- C10 (confirmed): visit_Compare is rejected with a semantic error
exactly when neither operand is Integer- or Real-tagged and it is not the
case that both operands are Complex-tagged or the operator is .eq. or
.neq.; in every non-rejected case it succeeds, and every Compare node it
produces has result type Logical of kind 4 and no folded constant value,
for all operand types, kinds and comparison operators. -/
theorem claim_C10_theorem (op : Cmpop) (left right : Expr) :
    (visit_Compare op left right =
        Except.error SemErr.CompareTypeMismatch ↔
      (((expr_type left).tag ≠ TtypeTag.Real ∧
        (expr_type left).tag ≠ TtypeTag.Integer) ∧
       ((expr_type right).tag ≠ TtypeTag.Real ∧
        (expr_type right).tag ≠ TtypeTag.Integer) ∧
       ¬((expr_type left).tag = TtypeTag.Complex ∧
         (expr_type right).tag = TtypeTag.Complex) ∧
       op ≠ Cmpop.CEq ∧ op ≠ Cmpop.NotEq)) ∧
    (∀ e2, visit_Compare op left right = Except.ok e2 →
       ∃ l2 r2, e2 = Expr.Compare l2 op r2
         (Ttype.mk TtypeTag.Logical 4 0) none) ∧
    (visit_Compare op left right =
        Except.error SemErr.CompareTypeMismatch ∨
      ∃ e2, visit_Compare op left right = Except.ok e2) := by
  by_cases hc : compare_reject (expr_type left) (expr_type right) op = true
  · have herr : visit_Compare op left right =
        Except.error SemErr.CompareTypeMismatch := by
      unfold visit_Compare
      rw [if_pos hc]
    refine ⟨?_, ?_, Or.inl herr⟩
    · rw [herr]
      exact ⟨fun _ => (compare_reject_iff _ _ _).mp hc, fun _ => rfl⟩
    · intro e2 h
      rw [herr] at h
      cases h
  · have hc2 : compare_reject (expr_type left) (expr_type right) op =
        false := by
      simpa using hc
    obtain ⟨l2, r2, hok⟩ := visit_Compare_ok_shape op left right hc2
    refine ⟨?_, ?_, Or.inr ⟨_, hok⟩⟩
    · rw [hok]
      constructor
      · intro habs
        cases habs
      · intro hC
        exact absurd ((compare_reject_iff _ _ _).mpr hC) (by simp [hc2])
    · intro e2 h
      rw [hok] at h
      injection h with h
      exact ⟨l2, r2, h.symm⟩

/-- C10 (witness): the theorem applied to a comparison of two constant
integers with the less-than operator: it is not rejected, and the
produced node is a Compare of type Logical(4) with no folded value. -/
theorem claim_C10_witness :
    ∃ l2 r2, Expr.Compare (Expr.ConstantInteger 2 int4T) Cmpop.Lt
        (Expr.ConstantInteger 3 int4T) (Ttype.mk TtypeTag.Logical 4 0)
        none =
      Expr.Compare l2 Cmpop.Lt r2 (Ttype.mk TtypeTag.Logical 4 0) none :=
  (claim_C10_theorem Cmpop.Lt (Expr.ConstantInteger 2 int4T)
    (Expr.ConstantInteger 3 int4T)).2.1 _ (by decide)

end AstToAsr
